import Mathlib

/-!
# Verification of the rhino-editor attachment extension

A shallow embedding of `src/exports/extensions/attachment.ts` (the attachment
node of a ProseMirror/TipTap based rich-text editor): the attribute codec
(per-field defaults and parse rules), the serializer (`renderHTML`), the pure
CSS-class helpers (`canPreview`, `toExtension`, `toType`), the dimension
writeback performed by the node view, and the `setAttachment` insertion
command together with the slice of ProseMirror position resolution that the
command uses (`resolve`, `node(1)`, `end()`).

Conventions of the embedding:
* JavaScript strings are `String`, nullable strings are `Option String`
  (`none` = `null`/`undefined`), and JS truthiness on them is `jsTruthy`.
* The JSON blob carried by the `data-trix-attachment` markup attribute is
  modelled structurally (`TrixBlob`); an attribute that is absent or that
  holds text `JSON.parse` would reject is `BlobAttr.missing` resp.
  `BlobAttr.malformed`.
* Code that throws is embedded in `Except String`; the error string names the
  JavaScript exception.
-/

namespace Rhino

/-- The attribute set of one attachment-figure node, with the defaults
declared in `addAttributes` (attachment.ts lines 162-244):
`attachmentId: null`, `caption: ""`, `progress: 100`, `sgid: ""`, `src: ""`,
`height: ""`, `width: ""`, `contentType: ""`, `fileName: ""`, `fileSize: ""`,
`content: ""`, `url: ""`, `previewable: false`. -/
structure Attrs where
  attachmentId : Option String := none
  caption : String := ""
  progress : Int := 100
  sgid : String := ""
  src : String := ""
  height : String := ""
  width : String := ""
  contentType : String := ""
  fileName : String := ""
  fileSize : String := ""
  content : String := ""
  url : String := ""
  previewable : Bool := false
deriving Repr, DecidableEq

/-- JS truthiness of a nullable string: `null`, `undefined` and `""` are falsy. -/
def jsTruthy : Option String → Bool
  | none => false
  | some s => !(s == "")

/-- JS `a || b` on nullable strings. -/
def jsOr (a b : Option String) : Option String :=
  if jsTruthy a then a else b

/-- JS `a || b` on plain strings (`""` is falsy). -/
def jsOrStr (a b : String) : String :=
  if a == "" then b else a

/-- The test of the regex `/^image(\/(gif|png|jpe?g)|$)/` (attachment.ts line 27,
`isPreviewable`) against a string, written over the character list.  The regex is
anchored at the start only: after `image` either the string ends (`$`) or a
`/gif`, `/png`, `/jpg` or `/jpeg` follows, with arbitrary trailing characters. -/
def isPreviewableTestL : List Char → Bool
  | 'i' :: 'm' :: 'a' :: 'g' :: 'e' :: rest =>
    match rest with
    | [] => true
    | '/' :: 'g' :: 'i' :: 'f' :: _ => true
    | '/' :: 'p' :: 'n' :: 'g' :: _ => true
    | '/' :: 'j' :: 'p' :: 'e' :: 'g' :: _ => true
    | '/' :: 'j' :: 'p' :: 'g' :: _ => true
    | _ => false
  | _ => false

/-- `contentType.match(isPreviewable) != null` for a string content type. -/
def isPreviewableTest (s : String) : Bool :=
  isPreviewableTestL s.toList

/-- attachment.ts lines 29-31:
`canPreview(previewable, contentType) = previewable || contentType?.match(isPreviewable) != null`.
A `none` content type short-circuits the optional chain to `undefined`, and
`undefined != null` is false. -/
def canPreview (previewable : Bool) (contentType : Option String) : Bool :=
  previewable ||
    (match contentType with
     | some s => isPreviewableTest s
     | none => false)

/-- The preview rule exactly as the claim words it: the explicit flag, or a
content type matching `^image\x2f(gif|png|jpe?g)$` exactly (i.e. being one of
the four literal types), or exactly `image` with no subtype.  Stated from the
claim, not from the source, to compare against `canPreview`. -/
def canPreviewClaim (previewable : Bool) (contentType : Option String) : Bool :=
  previewable ||
    contentType == some "image/gif" || contentType == some "image/png" ||
    contentType == some "image/jpg" || contentType == some "image/jpeg" ||
    contentType == some "image"

/-- JS `\w` character class (ASCII letters, digits, underscore). -/
def isWordChar (c : Char) : Bool :=
  c.isAlphanum || c == '_'

/-- The capture of `fileName.match(/\.(\w+)$/)`: the run of word characters at
the end of the string, provided it is nonempty and preceded by a dot.
`none` models a `null` match result. -/
def extMatch (s : String) : Option (List Char) :=
  let cs := s.toList
  let extRev := cs.reverse.takeWhile (fun c => isWordChar c)
  if extRev.isEmpty then none
  else
    match cs.reverse.drop extRev.length with
    | '.' :: _ => some extRev.reverse
    | _ => none

/-- ASCII lowercasing of a character list (JS `toLowerCase` restricted to the
`\w` characters an extension match can contain). -/
def lowerL (l : List Char) : List Char :=
  l.map Char.toLower

/-- attachment.ts lines 33-37.  `if (!fileName) return ""` handles `null` and
`""`.  Otherwise the code computes
`"attachment--" + fileName.match(/\.(\w+)$/)?.[1].toLowerCase()`: when the
match is `null` the optional chain short-circuits to `undefined`, and string
concatenation with `undefined` yields the literal text `"attachment--undefined"`. -/
def toExtension (fileName : Option String) : String :=
  match fileName with
  | none => ""
  | some s =>
    if s == "" then ""
    else
      match extMatch s with
      | some ext => "attachment--" ++ String.mk (lowerL ext)
      | none => "attachment--" ++ "undefined"

/-- attachment.ts lines 39-49: type class with precedence
preview over nonempty content over generic file. -/
def toType (content : Option String) (previewable : Bool) : String :=
  if previewable then "attachment--preview"
  else if jsTruthy content then "attachment--content"
  else "attachment--file"

/-- Claim C5, counterexample: the source regex is not anchored after the
subtype, so `image/pngx` (flag off) is previewable in the code although the
claim's exact-match rule rejects it. -/
theorem canPreview_counterexample :
    canPreview false (some "image/pngx") = true ∧
    canPreviewClaim false (some "image/pngx") = false := by
  constructor <;> rfl

/-- The regex test as a characterization: it succeeds exactly on the list
`image` itself and on every list extending one of the four previewable
image types. -/
theorem isPreviewableTestL_iff (l : List Char) :
    isPreviewableTestL l = true ↔
      (l = ['i', 'm', 'a', 'g', 'e'] ∨
       ['i', 'm', 'a', 'g', 'e', '/', 'g', 'i', 'f'] <+: l ∨
       ['i', 'm', 'a', 'g', 'e', '/', 'p', 'n', 'g'] <+: l ∨
       ['i', 'm', 'a', 'g', 'e', '/', 'j', 'p', 'g'] <+: l ∨
       ['i', 'm', 'a', 'g', 'e', '/', 'j', 'p', 'e', 'g'] <+: l) := by
  rw [isPreviewableTestL.eq_def]
  split
  case h_1 rest =>
    split
    case h_1 =>
      simp
    case h_2 t =>
      simp only [true_iff]
      exact Or.inr (Or.inl ⟨t, rfl⟩)
    case h_3 t =>
      simp only [true_iff]
      exact Or.inr (Or.inr (Or.inl ⟨t, rfl⟩))
    case h_4 t =>
      simp only [true_iff]
      exact Or.inr (Or.inr (Or.inr (Or.inr ⟨t, rfl⟩)))
    case h_5 t =>
      simp only [true_iff]
      exact Or.inr (Or.inr (Or.inr (Or.inl ⟨t, rfl⟩)))
    case h_6 hnil hgif hpng hjpeg hjpg =>
      simp only [List.cons_prefix_cons, List.cons.injEq, true_and]
      constructor
      · intro h
        exact absurd h (by simp)
      · rintro (h | h | h | h | h)
        · exact absurd h hnil
        · obtain ⟨t, ht⟩ := h
          exact (hgif t ht.symm).elim
        · obtain ⟨t, ht⟩ := h
          exact (hpng t ht.symm).elim
        · obtain ⟨t, ht⟩ := h
          exact (hjpg t ht.symm).elim
        · obtain ⟨t, ht⟩ := h
          exact (hjpeg t ht.symm).elim
  case h_2 hi =>
    simp only [Bool.false_eq_true, false_iff]
    rintro (h | h | h | h | h)
    · exact hi [] h
    · obtain ⟨t, ht⟩ := h
      exact hi ('/' :: 'g' :: 'i' :: 'f' :: t) ht.symm
    · obtain ⟨t, ht⟩ := h
      exact hi ('/' :: 'p' :: 'n' :: 'g' :: t) ht.symm
    · obtain ⟨t, ht⟩ := h
      exact hi ('/' :: 'j' :: 'p' :: 'g' :: t) ht.symm
    · obtain ⟨t, ht⟩ := h
      exact hi ('/' :: 'j' :: 'p' :: 'e' :: 'g' :: t) ht.symm

/-- Claim C5 (amended): for EVERY flag and EVERY content type string,
`canPreview` is true iff the explicit flag is true, or the content type is
exactly `image`, or it merely STARTS WITH `image/gif`, `image/png`,
`image/jpg` or `image/jpeg` (the regex has no end anchor after the subtype);
a `null` content type reduces to the flag.  In particular `image/svg+xml` and
`""` are false, `image/png` is true, and so is the strict extension
`image/pngx`. -/
theorem canPreview_spec :
    (∀ (p : Bool) (s : String),
      canPreview p (some s) = true ↔
        (p = true ∨ s.toList = "image".toList ∨
         "image/gif".toList <+: s.toList ∨ "image/png".toList <+: s.toList ∨
         "image/jpg".toList <+: s.toList ∨ "image/jpeg".toList <+: s.toList)) ∧
    (∀ p, canPreview p none = p) ∧
    canPreview false (some "image/png") = true ∧
    canPreview false (some "image/svg+xml") = false ∧
    canPreview false (some "") = false ∧
    canPreview false (some "image/pngx") = true := by
  refine ⟨fun p s => ?_, fun p => ?_, rfl, rfl, rfl, rfl⟩
  · have e1 : "image".toList = ['i', 'm', 'a', 'g', 'e'] := rfl
    have e2 : "image/gif".toList = ['i', 'm', 'a', 'g', 'e', '/', 'g', 'i', 'f'] := rfl
    have e3 : "image/png".toList = ['i', 'm', 'a', 'g', 'e', '/', 'p', 'n', 'g'] := rfl
    have e4 : "image/jpg".toList = ['i', 'm', 'a', 'g', 'e', '/', 'j', 'p', 'g'] := rfl
    have e5 : "image/jpeg".toList = ['i', 'm', 'a', 'g', 'e', '/', 'j', 'p', 'e', 'g'] := rfl
    rw [e1, e2, e3, e4, e5]
    simp only [canPreview, isPreviewableTest, Bool.or_eq_true]
    rw [isPreviewableTestL_iff]
  · cases p <;> rfl

/-- Claim C6: `toExtension` lowercases a real extension
(`a.b.JPG` gives `attachment--jpg`) and returns `""` for a missing or empty
file name — but for a nonempty name WITHOUT an extension the failed regex
match propagates the JS `undefined` into the concatenation, producing the
class `attachment--undefined` instead of the empty suffix the claim states. -/
theorem toExtension_eval :
    toExtension (some "a.b.JPG") = "attachment--jpg" ∧
    toExtension none = "" ∧
    toExtension (some "") = "" ∧
    toExtension (some "README") = "attachment--undefined" ∧
    toExtension (some "archive.tar.gz") = "attachment--gz" := by
  refine ⟨by decide, rfl, rfl, rfl, by decide⟩

/-! ## The markup element model and the attribute codec -/

/-- The JSON object serialized into / parsed out of the `data-trix-attachment`
markup attribute.  `renderHTML` (attachment.ts lines 102-113) serializes the
keys `caption`, `contentType`, `content`, `filename`, `filesize`, `height`,
`width`, `sgid`, `url`, `src` — and NOT `previewable`, `attachmentId` or
`progress`.  A `none` field models an absent JSON key (JS `undefined`). -/
structure TrixBlob where
  caption : Option String := none
  contentType : Option String := none
  content : Option String := none
  filename : Option String := none
  filesize : Option String := none
  height : Option String := none
  width : Option String := none
  sgid : Option String := none
  url : Option String := none
  src : Option String := none
  previewable : Option Bool := none
deriving Repr, DecidableEq

/-- The state of the `data-trix-attachment` attribute on a markup element:
absent (`getAttribute` returns `null`), present but not valid JSON
(`JSON.parse` throws), or a valid JSON object. -/
inductive BlobAttr where
  | missing
  | malformed
  | val (b : TrixBlob)
deriving Repr, DecidableEq

/-- A markup element as the parse rules of `addAttributes` observe it:
its ordinary string attributes, the `data-trix-attachment` JSON attribute,
the `innerHTML` of a `figcaption` descendant (if any), and the `innerHTML`
of an enclosing `action-text-attachment` element (if any). -/
structure Element where
  plainAttrs : List (String × String) := []
  trixAttachment : BlobAttr := .missing
  figcaptionInner : Option String := none
  closestActionText : Option String := none
deriving Repr, DecidableEq

/-- `getAttribute` over the ordinary attribute list. -/
def lookupAttr : List (String × String) → String → Option String
  | [], _ => none
  | (k, v) :: rest, name => if k == name then some v else lookupAttr rest name

/-- `element.getAttribute(name)` for ordinary attributes. -/
def Element.getAttr (e : Element) (name : String) : Option String :=
  lookupAttr e.plainAttrs name

/-- Access to a string-valued field of the attachment JSON blob by its key.
The key `contentType` is only read by the dedicated contentType parse rule,
never through a string name, so it is not listed here. -/
def TrixBlob.strField (b : TrixBlob) (name : String) : Option String :=
  if name == "caption" then b.caption
  else if name == "content" then b.content
  else if name == "filename" then b.filename
  else if name == "filesize" then b.filesize
  else if name == "height" then b.height
  else if name == "width" then b.width
  else if name == "sgid" then b.sgid
  else if name == "url" then b.url
  else if name == "src" then b.src
  else none

/-- The named field of the element's `data-trix-attachment` JSON object,
`none` when the attribute is absent, malformed, or lacks the key. -/
def blobField (e : Element) (name : String) : Option String :=
  match e.trixAttachment with
  | .val b => b.strField name
  | _ => none

/-- Modelled from the spec: `findAttribute` lives in
`src/exports/extensions/find-attribute.ts`, which is not among the given
sources.  Per spec section 4.1 the per-field resolution order is: explicit
attribute on the element, then the same-named field of the JSON-encoded
`data-trix-attachment` marker blob, then nothing — with malformed or missing
JSON metadata swallowed (the codec itself never throws). -/
def findAttribute (e : Element) (name : String) : Option String :=
  jsOr (e.getAttr name) (blobField e name)

/-- tiptap applies an attribute's default when the parse rule produced
`null`/`undefined`; any other value (including `""` and `false`) is kept. -/
def applyDefault (v : Option String) (d : String) : String :=
  match v with
  | some s => s
  | none => d

/-- The `caption` parse rule (attachment.ts lines 165-172):
`element.querySelector("figcaption")?.innerHTML || findAttribute(element, "caption")`. -/
def parseCaptionRule (e : Element) : Option String :=
  jsOr e.figcaptionInner (findAttribute e "caption")

/-- The `content` parse rule (attachment.ts lines 217-226):
`findAttribute(element, "content") || element.closest("action-text-attachment")?.innerHTML || ""`. -/
def parseContentRule (e : Element) : Option String :=
  jsOr (findAttribute e "content") (jsOr e.closestActionText (some ""))

/-- The `contentType` parse rule (attachment.ts lines 195-208):
`findAttribute(element, "content-type") || JSON.parse(element.getAttribute("data-trix-attachment") || "").contentType || "application/octet-stream"`.
When the explicit lookup is falsy and the `data-trix-attachment` attribute is
absent, `JSON.parse("")` throws a SyntaxError; when it is present but
malformed, `JSON.parse` throws as well.  The fallback constant is reached only
through a successfully parsed blob. -/
def parseContentTypeRule (e : Element) : Except String String :=
  let first := findAttribute e "content-type"
  if jsTruthy first then .ok (applyDefault first "")
  else
    match e.trixAttachment with
    | .missing => .error "SyntaxError: Unexpected end of JSON input"
    | .malformed => .error "SyntaxError: invalid JSON"
    | .val b =>
      .ok (match b.contentType with
           | some s => if s == "" then "application/octet-stream" else s
           | none => "application/octet-stream")

/-- The `previewable` parse rule (attachment.ts lines 233-242):
`JSON.parse(element.getAttribute("data-trix-attachment") || "{}").previewable`.
Here the missing attribute is guarded by the `"{}"` fallback (contrast with the
contentType rule), but a malformed attribute still throws. -/
def parsePreviewableRule (e : Element) : Except String (Option Bool) :=
  match e.trixAttachment with
  | .missing => .ok none
  | .malformed => .error "SyntaxError: invalid JSON"
  | .val b => .ok b.previewable

/-- The default tiptap parse of the `progress` attribute (no custom rule in the
source): read the same-named element attribute, absent means default 100.
tiptap would keep a non-numeric string as-is; since `Attrs.progress` is
numeric, only numeric values are representable, which no claim touches. -/
def parseProgress (e : Element) : Int :=
  match e.getAttr "progress" with
  | some s => (s.toInt?).getD 100
  | none => 100

/-- The whole of `addAttributes` applied to an element: every per-field parse
rule, with the tiptap default for fields whose rule produced `null`.  An
exception in the `contentType` or `previewable` rule aborts the parse. -/
def parseAttrs (e : Element) : Except String Attrs :=
  match parseContentTypeRule e, parsePreviewableRule e with
  | .error m, _ => .error m
  | _, .error m => .error m
  | .ok ct, .ok pv =>
    .ok { attachmentId := e.getAttr "attachmentId"
          caption := applyDefault (parseCaptionRule e) ""
          progress := parseProgress e
          sgid := applyDefault (findAttribute e "sgid") ""
          src := applyDefault (findAttribute e "src") ""
          height := applyDefault (findAttribute e "height") ""
          width := applyDefault (findAttribute e "width") ""
          contentType := ct
          fileName := applyDefault (findAttribute e "filename") ""
          fileSize := applyDefault (findAttribute e "filesize") ""
          content := applyDefault (parseContentRule e) ""
          url := applyDefault (findAttribute e "url") ""
          previewable := pv.getD false }

/-! ## Serialization (`renderHTML`) -/

/-- A child of the serialized figure element: the `img` child emitted when the
node has no embedded content, or the `figcaption` child whose hole receives
the node's inline content (the editable caption). -/
inductive RenderChild where
  | img (src width height : String)
  | figcaption
deriving Repr, DecidableEq

/-- The structured output of `renderHTML`: the figure element with its merged
class list, its `data-trix-content-type` attribute, the JSON blob serialized
into `data-trix-attachment`, the caption stored in the `data-trix-attributes`
presentation blob (whose `presentation` key is the constant `"gallery"`), and
the child list. -/
structure RenderedFigure where
  className : String
  dataTrixContentType : String
  blob : TrixBlob
  presentationCaption : String
  children : List RenderChild
deriving Repr, DecidableEq

/-- attachment.ts lines 84-160.  The class is
`options.class + " " + toType(content, canPreview(previewable, contentType)) + " " + toExtension(fileName)`
(tiptap `mergeAttributes` drops the duplicated `attachment` token from the
second operand, so the merged class equals this very string); the
`data-trix-attachment` blob holds the ten keys of `attachmentAttrs`; the
`img` child (src `url || src`) is emitted only when `content` is falsy. -/
def renderHTML (a : Attrs) : RenderedFigure :=
  let blob : TrixBlob :=
    { caption := some a.caption
      contentType := some a.contentType
      content := some a.content
      filename := some a.fileName
      filesize := some a.fileSize
      height := some a.height
      width := some a.width
      sgid := some a.sgid
      url := some a.url
      src := some a.src
      previewable := none }
  { className :=
      "attachment" ++ " " ++
        toType (some a.content) (canPreview a.previewable (some a.contentType)) ++ " " ++
        toExtension (some a.fileName)
    dataTrixContentType := a.contentType
    blob := blob
    presentationCaption := a.caption
    children :=
      if a.content == "" then
        [RenderChild.img (jsOrStr a.url a.src) a.width a.height, RenderChild.figcaption]
      else
        [RenderChild.figcaption] }

/-- The markup element that parsing sees after serializing `a`: the figure
carries the computed class, the `data-trix-content-type` attribute and the
JSON blob; the `figcaption` child holds the caption text (the spec invariant
that the stored caption equals the caption text content); no
`action-text-attachment` ancestor exists in self-produced markup. -/
def serializedElement (a : Attrs) : Element :=
  let r := renderHTML a
  { plainAttrs := [("class", r.className), ("data-trix-content-type", r.dataTrixContentType)]
    trixAttachment := .val r.blob
    figcaptionInner := some a.caption
    closestActionText := none }

/-! ## Claims about the codec -/

/-- Claim C4: the resolution order of the contentType rule (explicit
attribute, then JSON blob field, then the octet-stream fallback) does hold on
the paths that parse — but the rule is NOT total: with no explicit
`content-type` attribute and no `data-trix-attachment` attribute (the shape of
the second `parseHTML` pattern, a bare `figure.attachment`), the code runs
`JSON.parse(element.getAttribute("data-trix-attachment") || "")`, i.e.
`JSON.parse("")`, which throws a SyntaxError instead of degrading to the
fallback; a malformed blob likewise throws.  Contrast the `previewable` rule,
which guards the same access with `|| "\x7b\x7d"`. -/
theorem parseContentTypeRule_eval :
    parseContentTypeRule { plainAttrs := [("class", "attachment")] } =
      .error "SyntaxError: Unexpected end of JSON input" ∧
    parseContentTypeRule { trixAttachment := .malformed } =
      .error "SyntaxError: invalid JSON" ∧
    parseContentTypeRule { plainAttrs := [("content-type", "video/mp4")] } =
      .ok "video/mp4" ∧
    parseContentTypeRule
        { plainAttrs := [("content-type", "video/mp4")], trixAttachment := .malformed } =
      .ok "video/mp4" ∧
    parseContentTypeRule { trixAttachment := .val { contentType := some "video/mp4" } } =
      .ok "video/mp4" ∧
    parseContentTypeRule { trixAttachment := .val {} } =
      .ok "application/octet-stream" := by
  refine ⟨rfl, rfl, rfl, rfl, rfl, rfl⟩

/-- A valid attribute set on which the claimed round-trip fails: `previewable`
is true, everything else is defaulted except a nonempty content type. -/
def previewableAttrs : Attrs :=
  { contentType := "image/png", previewable := true }

/-- Claim C1, counterexample: `renderHTML` does not serialize `previewable`
into the `data-trix-attachment` blob (and serializes `attachmentId` and
`progress` nowhere), so parsing the serialized markup of a previewable
attachment yields `previewable = false`: the round-trip loses the field. -/
theorem roundTrip_counterexample :
    parseAttrs (serializedElement previewableAttrs) =
      .ok { previewableAttrs with previewable := false } ∧
    previewableAttrs.previewable = true := by
  exact ⟨rfl, rfl⟩

/-- Claim C1 (amended): parsing the serialized markup recovers every field
that `renderHTML` actually persists — `caption`, `sgid`, `src`, `url`,
`width`, `height`, `contentType`, `fileName`, `fileSize`, `content` — i.e.
the round-trip `parse(serialize(A)) = A` holds for every attribute set whose
`attachmentId`, `progress` and `previewable` are at their defaults (those
three are not serialized) and whose `contentType` is nonempty (an empty
content type parses back as `application/octet-stream`). -/
theorem roundTrip_persisted (a : Attrs)
    (h1 : a.attachmentId = none) (h2 : a.progress = 100)
    (h3 : a.previewable = false) (h4 : ¬ a.contentType = "") :
    parseAttrs (serializedElement a) = .ok a := by
  obtain ⟨id, cap, prog, sg, sr, he, wi, ct, fn, fs, co, ur, pv⟩ := a
  simp only at h1 h2 h3 h4
  subst h1 h2 h3
  have hct : (ct == "") = false := by simpa using h4
  simp [parseAttrs, serializedElement, renderHTML, parseContentTypeRule,
    parsePreviewableRule, parseCaptionRule, parseContentRule, parseProgress,
    findAttribute, blobField, TrixBlob.strField, Element.getAttr, lookupAttr,
    jsOr, jsTruthy, applyDefault, hct]
  by_cases hco : co = "" <;> simp [hco]

/-- A representative nontrivial attribute set for the round-trip witness. -/
def witnessAttrs : Attrs :=
  { caption := "a photo", sgid := "sgid123", src := "blob:abc",
    height := "10", width := "20", contentType := "image/jpeg",
    fileName := "pic.jpeg", fileSize := "2048", content := "",
    url := "https://example.test/pic.jpeg" }

/-- Witness for `roundTrip_persisted` at a concrete attribute set. -/
theorem roundTrip_persisted_witness :
    witnessAttrs.attachmentId = none ∧ witnessAttrs.progress = 100 ∧
    witnessAttrs.previewable = false ∧ ¬ witnessAttrs.contentType = "" ∧
    parseAttrs (serializedElement witnessAttrs) = .ok witnessAttrs :=
  ⟨rfl, rfl, rfl, by decide, roundTrip_persisted witnessAttrs rfl rfl rfl (by decide)⟩

/-- The attribute set showing that `renderHTML` drops embedded content from
the child list. -/
def contentAttrs : Attrs :=
  { content := "<div>embed</div>", contentType := "application/pdf" }

/-- Claim C7, counterexample: when the node HAS embedded `content`,
`renderHTML` emits only the figure and the caption element (attachment.ts
line 159 returns `[...figure, figcaption]`): no child carrying the embedded
content markup is serialized, contrary to the claim that the content markup is
emitted in place of the image. -/
theorem renderHTML_content_counterexample :
    (renderHTML contentAttrs).children = [RenderChild.figcaption] ∧
    ¬ contentAttrs.content = "" := by
  exact ⟨rfl, by decide⟩

/-- Claim C7 (amended): serialization emits the figure with the computed class
list, the full-attribute JSON blob (ten keys, `previewable` absent) and the
presentation blob caption; then an `img` child (src `url || src`) exactly when
the node has no embedded content — when it does have content, no child but the
caption element is emitted (the content travels only inside the JSON blob) —
and the caption element always comes last, holding the editable caption
content. -/
theorem renderHTML_shape (a : Attrs) :
    renderHTML a =
      { className :=
          "attachment" ++ " " ++
            toType (some a.content) (canPreview a.previewable (some a.contentType)) ++ " " ++
            toExtension (some a.fileName)
        dataTrixContentType := a.contentType
        blob :=
          { caption := some a.caption, contentType := some a.contentType,
            content := some a.content, filename := some a.fileName,
            filesize := some a.fileSize, height := some a.height,
            width := some a.width, sgid := some a.sgid, url := some a.url,
            src := some a.src, previewable := none }
        presentationCaption := a.caption
        children :=
          if a.content == "" then
            [RenderChild.img (jsOrStr a.url a.src) a.width a.height, RenderChild.figcaption]
          else
            [RenderChild.figcaption] } := rfl

/-! ## The ProseMirror document slice used by the insertion command

Positions follow ProseMirror: a text node occupies as many positions as it has
characters, every other node occupies its content size plus two (opening and
closing token); the document's own boundary tokens are not counted, so
positions in a document run from `0` to the document content size. -/

/-- A document node: text, a paragraph, an attachment-figure (with its
attributes and inline caption content) or an attachment-gallery. -/
inductive PMNode where
  | text (s : String)
  | paragraph (content : List PMNode)
  | figure (attrs : Attrs) (content : List PMNode)
  | gallery (content : List PMNode)

mutual

/-- `node.nodeSize`. -/
def nodeSize : PMNode → Nat
  | .text s => s.length
  | .paragraph l => 2 + sizeList l
  | .figure _ l => 2 + sizeList l
  | .gallery l => 2 + sizeList l

/-- `fragment.size`: the content size of a node with children `l`. -/
def sizeList : List PMNode → Nat
  | [] => 0
  | n :: rest => nodeSize n + sizeList rest

end

/-- `doc.resolve(p).node(1)`: the depth-1 ancestor, i.e. the top-level child
of the document strictly containing position `p`; `none` when `p` sits at a
top-level boundary (then the resolved depth is 0 and `node(1)` is the JS
`undefined`). -/
def topNodeAt : List PMNode → Nat → Option PMNode
  | [], _ => none
  | n :: rest, off =>
    if off = 0 then none
    else if off < nodeSize n then some n
    else topNodeAt rest (off - nodeSize n)

/-- Whether a node is an `attachment-gallery` (`type.name` comparison). -/
def isGallery : PMNode → Bool
  | .gallery _ => true
  | _ => false

mutual

/-- Descend into node `n` at a position strictly inside it: `off` is the
position relative to the node's start, `base` its absolute start, `pce` the
absolute end of the PARENT's content.  A position inside a text child resolves
at the parent (text is not a resolution depth), so the answer is `pce`;
otherwise resolution continues in the node's own content. -/
def endInNode : PMNode → Nat → Nat → Nat → Nat
  | .text _, _, _, pce => pce
  | .paragraph l, off, base, _ => endInContent l (off - 1) (base + 1) (base + 1 + sizeList l)
  | .figure _ l, off, base, _ => endInContent l (off - 1) (base + 1) (base + 1 + sizeList l)
  | .gallery l, off, base, _ => endInContent l (off - 1) (base + 1) (base + 1 + sizeList l)

/-- Scan a content list: `off` is the position relative to the start of the
content, `base` the absolute position where the content starts, and `ce` the
absolute position of the content's end.  A position at a boundary of this
content resolves here (the answer is `ce`); a position strictly inside a
child descends into it. -/
def endInContent : List PMNode → Nat → Nat → Nat → Nat
  | [], _, _, ce => ce
  | n :: rest, off, base, ce =>
    if off = 0 then ce
    else if off < nodeSize n then endInNode n off base ce
    else endInContent rest (off - nodeSize n) (base + nodeSize n) ce

end

/-- `doc.resolve(p).end()`: the absolute end position of the content of the
innermost node containing `p` (the document itself when `p` resolves at
depth 0). -/
def resolveEnd (doc : List PMNode) (p : Nat) : Nat :=
  endInContent doc p 0 (sizeList doc)

/-- The editor state as the command reads it: the document's top-level blocks
and the selection's `anchor` and `head` positions.  `selection.from` is the
smaller of the two, `selection.to` the larger. -/
structure EditorState where
  doc : List PMNode
  selAnchor : Nat
  selHead : Nat

/-- The command accepts one attachment or an array of attachments and
normalizes to an array (`Array.isArray(options) ? options : [].concat(options)`). -/
inductive AttachmentInput where
  | single (a : Attrs)
  | many (l : List Attrs)

/-- Input normalization, attachment.ts lines 400-402. -/
def normalizeInput : AttachmentInput → List Attrs
  | .single a => [a]
  | .many l => l

/-- attachment.ts lines 404-409: one attachment-figure node per input, with
the caption as its inline text child when present. -/
def toFigureNode (a : Attrs) : PMNode :=
  .figure a (if a.caption == "" then [] else [PMNode.text a.caption])

/-- A primitive tree edit recorded by the transaction: `tr.insert(pos, nodes)`
or `tr.replaceWith(fromPos, toPos, nodes)`. -/
inductive TrStep where
  | insert (pos : Nat) (nodes : List PMNode)
  | replaceWith (fromPos toPos : Nat) (nodes : List PMNode)

/-- The transaction the command builds: its steps, and the recorded selection
when the command repositioned it (`none` means the host's default mapping). -/
structure Transaction where
  steps : List TrStep
  selection : Option Nat

/-- Modelled from the spec: `selectionToInsertionEnd` lives in
`src/internal/selection-to-insertion-end.ts`, which is not among the given
sources.  Per spec sections 4.4.6 and 8 it adjusts the transaction's recorded
selection so the cursor lands at the end of the just-inserted content; for a
replace starting at `base` that inserted `nodes`, that end position is
`base + sizeList nodes`. -/
def insertionEnd (base : Nat) (nodes : List PMNode) : Nat :=
  base + sizeList nodes

/-- `positionOfGalleryBefore` clamp, attachment.ts lines 387-388:
`state.selection.anchor - 2 < 0 ? 0 : state.selection.anchor - 2`. -/
def beforePos (anchor : Nat) : Nat :=
  if anchor < 2 then 0 else anchor - 2

/-- `isInGalleryAfter`, attachment.ts lines 394-395:
`nodeBefore.node(1)?.type.name === "attachment-gallery"` — the optional chain
makes an unresolved ancestor compare unequal, i.e. false. -/
def galleryAfter (doc : List PMNode) (anchor : Nat) : Bool :=
  ((topNodeAt doc (beforePos anchor)).map isGallery).getD false

/-- The `setAttachment` command, attachment.ts lines 381-434, as a function
from the state and the (un-normalized) input to the transaction it builds.
`currentSelection.node(1).type` has no optional chain, so a depth-0 anchor (a
top-level boundary, e.g. the anchor of a node selection of a top-level block)
throws a TypeError; and in the no-adjacent-gallery branch
`tr.replaceWith(currSelection.from - 1, ...)` throws a RangeError when
`from = 0` (position `-1`).  Both throws are recorded as `.error`.  The
command itself returns `true` whenever it finishes, which is exactly the
`.ok` case. -/
def setAttachmentCmd (st : EditorState) (input : AttachmentInput) :
    Except String Transaction :=
  match topNodeAt st.doc st.selAnchor with
  | none => .error "TypeError: cannot read type of undefined"
  | some n =>
    let isInGalleryCurrent := isGallery n
    let isInGalleryAfter := galleryAfter st.doc st.selAnchor
    let attachmentNodes := (normalizeInput input).map toFigureNode
    if isInGalleryCurrent || isInGalleryAfter then
      .ok { steps := [.insert
              (resolveEnd st.doc st.selAnchor - (if isInGalleryCurrent then 0 else 2))
              attachmentNodes]
            selection := none }
    else
      let fromPos := min st.selAnchor st.selHead
      let toPos := max st.selAnchor st.selHead
      if fromPos = 0 then .error "RangeError: position out of range"
      else
        let blocks := [PMNode.paragraph [], PMNode.gallery attachmentNodes,
                       PMNode.paragraph []]
        .ok { steps := [.replaceWith (fromPos - 1) toPos blocks]
              selection := some (insertionEnd (fromPos - 1) blocks) }

/-- Whether an `Except` result is a success (the command returned `true`). -/
def isOkE (r : Except String Transaction) : Bool :=
  match r with
  | .ok _ => true
  | .error _ => false

/-! ## Claims about the insertion command -/

/-- Claim C2: whenever the ancestor block at the cursor is a gallery
(`isInGalleryCurrent`) or the ancestor block at the clamped position two
before the cursor is a gallery (`isInGalleryAfter`), the command records a
single insert of the new attachment-figure nodes at
`currentSelection.end() - backtrack`, the end of the innermost block at the
cursor, with backtrack 0 when the current check matched (taking precedence)
and 2 when only the after check matched. -/
theorem setAttachment_inGallery (st : EditorState) (input : AttachmentInput) (n : PMNode)
    (hcur : topNodeAt st.doc st.selAnchor = some n)
    (hg : isGallery n = true ∨ galleryAfter st.doc st.selAnchor = true) :
    setAttachmentCmd st input =
      .ok { steps := [TrStep.insert
              (resolveEnd st.doc st.selAnchor - (if isGallery n then 0 else 2))
              ((normalizeInput input).map toFigureNode)]
            selection := none } := by
  unfold setAttachmentCmd
  rw [hcur]
  rcases hg with h | h
  · simp [h]
  · simp [h]

/-- The document for the in-gallery witness: a gallery holding one figure,
followed by a paragraph.  Cursor position 2 sits inside the figure. -/
def galleryDoc : List PMNode :=
  [PMNode.gallery [PMNode.figure {} []], PMNode.paragraph []]

/-- Witness for `setAttachment_inGallery`, both matching cases: with the
cursor inside the figure of the gallery (anchor 2, current case) insertion
happens at the figure content's end, position 2, with backtrack 0; with the
cursor in the paragraph just after the gallery (anchor 5, after case, the
paragraph's content end is 5) insertion happens at 5 - 2 = 3, the end of the
gallery's content. -/
theorem setAttachment_inGallery_witness :
    (setAttachmentCmd ⟨galleryDoc, 2, 2⟩ (AttachmentInput.many []) =
      .ok { steps := [TrStep.insert 2 []], selection := none }) ∧
    (setAttachmentCmd ⟨galleryDoc, 5, 5⟩ (AttachmentInput.many []) =
      .ok { steps := [TrStep.insert 3 []], selection := none }) :=
  ⟨setAttachment_inGallery ⟨galleryDoc, 2, 2⟩ (AttachmentInput.many [])
      (PMNode.gallery [PMNode.figure {} []]) rfl (Or.inl rfl),
   setAttachment_inGallery ⟨galleryDoc, 5, 5⟩ (AttachmentInput.many [])
      (PMNode.paragraph []) rfl (Or.inr rfl)⟩

/-- Claim C3, counterexample: with the cursor between the two characters of a
paragraph `ab` (anchor = from = to = 2) and no adjacent gallery, the command
replaces the range STARTING AT 1 = `from - 1`, not at the selection start 2:
the position holding the character `a` is consumed as well, so it is not the
current selection range that is replaced. -/
theorem setAttachment_replace_counterexample :
    setAttachmentCmd ⟨[PMNode.paragraph [PMNode.text "ab"]], 2, 2⟩
        (AttachmentInput.many []) =
      .ok { steps := [TrStep.replaceWith 1 2
              [PMNode.paragraph [], PMNode.gallery [], PMNode.paragraph []]]
            selection := some 7 } ∧
    (1 : Nat) ≠ min 2 2 :=
  ⟨rfl, by decide⟩

/-- Claim C3 (amended): when neither gallery-adjacency check holds, the
command records exactly one replace of the range from ONE POSITION BEFORE the
selection start to the selection end with the sequence
`[empty paragraph, gallery of the input figures in order, empty paragraph]`,
and records the selection at the end of the just-inserted content. -/
theorem setAttachment_newGallery (st : EditorState) (input : AttachmentInput) (n : PMNode)
    (hcur : topNodeAt st.doc st.selAnchor = some n)
    (hng : isGallery n = false)
    (hna : galleryAfter st.doc st.selAnchor = false)
    (hfrom : min st.selAnchor st.selHead ≠ 0) :
    setAttachmentCmd st input =
      .ok { steps := [TrStep.replaceWith (min st.selAnchor st.selHead - 1)
              (max st.selAnchor st.selHead)
              [PMNode.paragraph [],
               PMNode.gallery ((normalizeInput input).map toFigureNode),
               PMNode.paragraph []]]
            selection := some (insertionEnd (min st.selAnchor st.selHead - 1)
              [PMNode.paragraph [],
               PMNode.gallery ((normalizeInput input).map toFigureNode),
               PMNode.paragraph []]) } := by
  unfold setAttachmentCmd
  rw [hcur]
  simp [hng, hna, hfrom]

/-- Witness for `setAttachment_newGallery`: inserting one attachment at the
cursor of a lone empty paragraph replaces range 0..1 with
paragraph-gallery-paragraph and puts the selection at position 8, the end of
the inserted content. -/
theorem setAttachment_newGallery_witness :
    setAttachmentCmd ⟨[PMNode.paragraph []], 1, 1⟩ (AttachmentInput.single {}) =
      .ok { steps := [TrStep.replaceWith 0 1
              [PMNode.paragraph [], PMNode.gallery [PMNode.figure {} []],
               PMNode.paragraph []]]
            selection := some 8 } :=
  setAttachment_newGallery ⟨[PMNode.paragraph []], 1, 1⟩ (AttachmentInput.single {})
    (PMNode.paragraph []) rfl rfl rfl (by decide)

/-- Claim C9: an empty input sequence is not rejected — under the same
validity conditions any insertion needs (an anchor strictly inside a
top-level block, a positive selection start), the command succeeds, and in the
no-adjacent-gallery case it inserts a gallery with ZERO children between the
two empty paragraphs. -/
theorem setAttachment_emptyInput (st : EditorState) (n : PMNode)
    (hcur : topNodeAt st.doc st.selAnchor = some n)
    (hfrom : min st.selAnchor st.selHead ≠ 0) :
    isOkE (setAttachmentCmd st (AttachmentInput.many [])) = true ∧
    (isGallery n = false → galleryAfter st.doc st.selAnchor = false →
      setAttachmentCmd st (AttachmentInput.many []) =
        .ok { steps := [TrStep.replaceWith (min st.selAnchor st.selHead - 1)
                (max st.selAnchor st.selHead)
                [PMNode.paragraph [], PMNode.gallery [], PMNode.paragraph []]]
              selection := some (min st.selAnchor st.selHead - 1 + 6) }) := by
  have h0 : ¬ (st.selAnchor = 0 ∨ st.selHead = 0) := by omega
  refine ⟨?_, fun hng hna => ?_⟩
  · unfold setAttachmentCmd
    rw [hcur]
    cases hg : isGallery n <;> cases ha : galleryAfter st.doc st.selAnchor <;>
      simp [isOkE, hg, ha, h0]
  · unfold setAttachmentCmd
    rw [hcur]
    simp [hng, hna, h0, insertionEnd, sizeList, nodeSize, normalizeInput]

/-- Witness for `setAttachment_emptyInput`: the empty input applied inside a
text paragraph produces the degenerate zero-child gallery. -/
theorem setAttachment_emptyInput_witness :
    isOkE (setAttachmentCmd ⟨[PMNode.paragraph [PMNode.text "hi"]], 2, 2⟩
      (AttachmentInput.many [])) = true ∧
    setAttachmentCmd ⟨[PMNode.paragraph [PMNode.text "hi"]], 2, 2⟩
        (AttachmentInput.many []) =
      .ok { steps := [TrStep.replaceWith 1 2
              [PMNode.paragraph [], PMNode.gallery [], PMNode.paragraph []]]
            selection := some 7 } :=
  ⟨(setAttachment_emptyInput ⟨[PMNode.paragraph [PMNode.text "hi"]], 2, 2⟩
      (PMNode.paragraph [PMNode.text "hi"]) rfl (by decide)).1,
   (setAttachment_emptyInput ⟨[PMNode.paragraph [PMNode.text "hi"]], 2, 2⟩
      (PMNode.paragraph [PMNode.text "hi"]) rfl (by decide)).2 rfl rfl⟩

/-- Claim C10, counterexample: with the anchor at position 0 — a top-level
boundary, as produced by a node selection of the first block — the command
does not return `true`: `currentSelection.node(1)` is `undefined` and reading
`.type` throws a TypeError. -/
theorem setAttachment_throw_counterexample :
    setAttachmentCmd ⟨[PMNode.paragraph []], 0, 2⟩ (AttachmentInput.single {}) =
      .error "TypeError: cannot read type of undefined" := rfl

/-- Claim C10 (amended): the command returns `true` for every input and every
state in which the anchor resolves strictly inside a top-level block and the
selection start is positive; it never reports a no-op (a result is produced
even when nothing will be dispatched, since the `dispatch` guard only guards
the dispatch call, not the return value). -/
theorem setAttachment_returnsTrue (st : EditorState) (input : AttachmentInput) (n : PMNode)
    (hcur : topNodeAt st.doc st.selAnchor = some n)
    (hfrom : min st.selAnchor st.selHead ≠ 0) :
    isOkE (setAttachmentCmd st input) = true := by
  have h0 : ¬ (st.selAnchor = 0 ∨ st.selHead = 0) := by omega
  unfold setAttachmentCmd
  rw [hcur]
  cases hg : isGallery n <;> cases ha : galleryAfter st.doc st.selAnchor <;>
    simp [isOkE, hg, ha, h0]

/-- Witness for `setAttachment_returnsTrue`. -/
theorem setAttachment_returnsTrue_witness :
    isOkE (setAttachmentCmd ⟨[PMNode.paragraph [PMNode.text "x"]], 1, 1⟩
      (AttachmentInput.single { fileName := "a.png" })) = true :=
  setAttachment_returnsTrue ⟨[PMNode.paragraph [PMNode.text "x"]], 1, 1⟩
    (AttachmentInput.single { fileName := "a.png" })
    (PMNode.paragraph [PMNode.text "x"]) rfl (by decide)

/-! ## Claim about the node view dimension writeback -/

/-- attachment.ts lines 349-360: on `img.onload` the view dispatches
`setNodeMarkup(getPos(), undefined, \x7b...node.attrs, height, width\x7d)` —
the spread keeps every attribute of the node and overrides exactly `height`
and `width` with the natural dimensions of the loaded media. -/
def dimensionWriteback (a : Attrs) (naturalWidth naturalHeight : Nat) : Attrs :=
  { a with height := toString naturalHeight, width := toString naturalWidth }

/-- `setNodeMarkup` keeps the node's type and content and replaces only its
attributes; nodes other than the addressed one are untouched. -/
def setNodeAttrs : PMNode → Attrs → PMNode
  | .figure _ l, a => .figure a l
  | n, _ => n

/-- The tree-level effect of `view.dispatch(view.state.tr.setNodeMarkup(...))`
addressed at the `i`-th top-level node. -/
def setNodeMarkupAt : List PMNode → Nat → Attrs → List PMNode
  | [], _, _ => []
  | n :: rest, 0, a => setNodeAttrs n a :: rest
  | n :: rest, Nat.succ i, a => n :: setNodeMarkupAt rest i a

theorem setNodeMarkupAt_self (d : List PMNode) (i : Nat) (a na : Attrs) (l : List PMNode)
    (h : d[i]? = some (PMNode.figure a l)) :
    (setNodeMarkupAt d i na)[i]? = some (PMNode.figure na l) := by
  induction d generalizing i with
  | nil => simp at h
  | cons x rest ih =>
    cases i with
    | zero =>
      simp only [List.getElem?_cons_zero, Option.some.injEq] at h
      subst h
      simp [setNodeMarkupAt, setNodeAttrs]
    | succ j =>
      simp only [List.getElem?_cons_succ] at h
      simpa [setNodeMarkupAt] using ih j h

theorem setNodeMarkupAt_other (d : List PMNode) (i j : Nat) (na : Attrs)
    (h : j ≠ i) : (setNodeMarkupAt d i na)[j]? = d[j]? := by
  induction d generalizing i j with
  | nil => cases i <;> rfl
  | cons x rest ih =>
    cases i with
    | zero =>
      cases j with
      | zero => exact absurd rfl h
      | succ k => simp [setNodeMarkupAt]
    | succ i2 =>
      cases j with
      | zero => simp [setNodeMarkupAt]
      | succ k => simpa [setNodeMarkupAt] using ih i2 k (fun hk => h (by simp [hk]))

/-- Claim C8: the dimension writeback replaces the addressed figure's
attributes by its own attributes with exactly `width` and `height` set to the
natural dimensions: the node's type, its caption content, and every other
attribute of it keep their values, and every other node of the document is
unchanged. -/
theorem dimensionWriteback_frame (d : List PMNode) (i : Nat) (a : Attrs)
    (l : List PMNode) (w h : Nat)
    (hfig : d[i]? = some (PMNode.figure a l)) :
    (setNodeMarkupAt d i (dimensionWriteback a w h))[i]? =
      some (PMNode.figure (dimensionWriteback a w h) l) ∧
    (∀ j, j ≠ i → (setNodeMarkupAt d i (dimensionWriteback a w h))[j]? = d[j]?) ∧
    (dimensionWriteback a w h).width = toString w ∧
    (dimensionWriteback a w h).height = toString h ∧
    (dimensionWriteback a w h).attachmentId = a.attachmentId ∧
    (dimensionWriteback a w h).caption = a.caption ∧
    (dimensionWriteback a w h).progress = a.progress ∧
    (dimensionWriteback a w h).sgid = a.sgid ∧
    (dimensionWriteback a w h).src = a.src ∧
    (dimensionWriteback a w h).contentType = a.contentType ∧
    (dimensionWriteback a w h).fileName = a.fileName ∧
    (dimensionWriteback a w h).fileSize = a.fileSize ∧
    (dimensionWriteback a w h).content = a.content ∧
    (dimensionWriteback a w h).url = a.url ∧
    (dimensionWriteback a w h).previewable = a.previewable := by
  refine ⟨setNodeMarkupAt_self d i a (dimensionWriteback a w h) l hfig,
    fun j hj => setNodeMarkupAt_other d i j (dimensionWriteback a w h) hj,
    rfl, rfl, rfl, rfl, rfl, rfl, rfl, rfl, rfl, rfl, rfl, rfl, rfl⟩

/-- Witness for `dimensionWriteback_frame`: a two-block document whose second
block is a previewable figure, given natural dimensions 640 times 480. -/
theorem dimensionWriteback_frame_witness :
    (setNodeMarkupAt
        [PMNode.paragraph [], PMNode.figure previewableAttrs []] 1
        (dimensionWriteback previewableAttrs 640 480))[1]? =
      some (PMNode.figure (dimensionWriteback previewableAttrs 640 480) []) ∧
    (dimensionWriteback previewableAttrs 640 480).width = "640" ∧
    (dimensionWriteback previewableAttrs 640 480).sgid = previewableAttrs.sgid :=
  ⟨(dimensionWriteback_frame
      [PMNode.paragraph [], PMNode.figure previewableAttrs []] 1
      previewableAttrs [] 640 480 rfl).1,
   (dimensionWriteback_frame
      [PMNode.paragraph [], PMNode.figure previewableAttrs []] 1
      previewableAttrs [] 640 480 rfl).2.2.1,
   (dimensionWriteback_frame
      [PMNode.paragraph [], PMNode.figure previewableAttrs []] 1
      previewableAttrs [] 640 480 rfl).2.2.2.2.2.2.2.1⟩

end Rhino
